import Mathlib

/-!
Verification development for the federalist-garden-build build orchestrator.

The development shallowly embeds the two source files of the repository:

* `src/src/main.py` — the CLI parameter sanitizer: filtering of the request
  parameters against the `build` task's parameter names, the JSON
  normalization of `user_environment_variables`, and the `shlex.quote`
  escaping of `branch` / `owner` / `repository`.
* `src/tasks/main.py` — the pipeline: `run_task` (flag rendering and command
  construction), `main` (the fetch/build/publish state machine with its
  45-minute timeout scope and its terminal notifications), and
  `private_values` (the secret set builder).

External collaborators (the `fetch_repo`/`publish` steps, the invoked `inv`
tasks, the notification HTTP posts, `decrypt`) are modelled by their observable
behaviour: each stage of a run is parametrized by what the collaborator did
(returned normally, raised `UnexpectedExit`, raised some other exception, or
was interrupted by the deadline signal).  Terminal notification posts
themselves are modelled as delivered; the claims quantify over the pipeline's
control-flow paths, not over failures of the notifier transport (with the one
exception of the initial processing notification, whose possible failure is
claim C7's subject and is modelled explicitly).
-/

namespace FederalistGardenBuild

/-! ## Character classes for the POSIX-shell word model and `shlex.quote`

Codepoint-level embedding of CPython's `shlex.quote` unsafe-character test
(the `_find_unsafe` regex with `re.ASCII`, whose safe class is `\w` plus
`@ % + = : , . / -`): a character is *safe* iff it is an
ASCII letter (65–90, 97–122), an ASCII digit (48–57), or one of
`_ @ % + = : , . / -` (codes 95 64 37 43 61 58 44 46 47 45).
-/

def isSafeCode (n : Nat) : Bool :=
  (97 ≤ n && n ≤ 122) || (65 ≤ n && n ≤ 90) || (48 ≤ n && n ≤ 57) ||
  n = 95 || n = 64 || n = 37 || n = 43 || n = 61 || n = 58 ||
  n = 44 || n = 46 || n = 47 || n = 45

/-- Whitespace that splits shell words: space, tab, newline. -/
def isSpaceCode (n : Nat) : Bool := n = 32 || n = 9 || n = 10

/-- Shell operator characters that terminate or extend a command:
`;` `|` `&` `<` `>` (codes 59 124 38 60 62). -/
def isOpCode (n : Nat) : Bool := n = 59 || n = 124 || n = 38 || n = 60 || n = 62

/-- Characters with further shell meaning that the word model refuses to
tokenize outside quotes (expansion, globbing, comments, grouping):
`$` `` ` `` `\` `*` `?` `[` `~` `#` `(` `)` (codes 36 96 92 42 63 91 126 35 40 41).
Refusing them keeps the model honest: a string the lexer accepts as a single
`word` token contains none of these unquoted. -/
def isRefusedCode (n : Nat) : Bool :=
  n = 36 || n = 96 || n = 92 || n = 42 || n = 63 ||
  n = 91 || n = 126 || n = 35 || n = 40 || n = 41

/-! ## `shlex.quote`

CPython:
```
def quote(s):
    if not s:
        return "''"
    if _find_unsafe(s) is None:
        return s
    return "'" + s.replace("'", "'\"'\"'") + "'"
```
-/

/-- The body of CPython's `s.replace("'", "'\"'\"'")`: every single quote is
replaced by the five-character sequence `'"'"'`; every other character is
kept. -/
def escInner : List Char → List Char
  | [] => []
  | c :: cs =>
      (if c = '\'' then ['\'', '"', '\'', '"', '\''] else [c]) ++ escInner cs

/-- `shlex.quote` on a character list. -/
def quoteChars (s : List Char) : List Char :=
  if s.isEmpty then ['\'', '\'']
  else if s.all (fun c => isSafeCode c.toNat) then s
  else '\'' :: (escInner s ++ ['\''])

/-- `shlex.quote` on strings, as used by `src/src/main.py` on
`branch`/`owner`/`repository` and by `run_task` on every flag value. -/
def shlex_quote (s : String) : String := String.mk (quoteChars s.data)

/-! ## A simplified POSIX shell word lexer

The lexer splits a command-line fragment into `word` and operator tokens,
handling single quotes, double quotes and unquoted metacharacters.  It returns
`none` on an unterminated quote and on any unquoted character whose shell
meaning the model does not cover (`isRefusedCode`, and `$`/backtick/backslash
inside double quotes), so `some [Tok.word w]` really means: the fragment is
one literal word with value `w`, with no operator, no unterminated quote and
no unmodelled shell syntax.
-/

inductive Tok where
  | word (cs : List Char)
  | op (c : Char)
deriving DecidableEq, Repr

inductive LexState where
  | normal
  | single
  | double
deriving DecidableEq, Repr

def lexAux : List Char → LexState → List Char → Bool → Option (List Tok)
  | [], .normal, acc, inW => some (if inW then [Tok.word acc.reverse] else [])
  | [], .single, _, _ => none
  | [], .double, _, _ => none
  | c :: rest, .normal, acc, inW =>
      if c = '\'' then lexAux rest .single acc true
      else if c = '"' then lexAux rest .double acc true
      else if isSpaceCode c.toNat then
        if inW then (lexAux rest .normal [] false).map (fun ts => Tok.word acc.reverse :: ts)
        else lexAux rest .normal [] false
      else if isOpCode c.toNat then
        if inW then
          (lexAux rest .normal [] false).map (fun ts => Tok.word acc.reverse :: Tok.op c :: ts)
        else (lexAux rest .normal [] false).map (fun ts => Tok.op c :: ts)
      else if isRefusedCode c.toNat then none
      else lexAux rest .normal (c :: acc) true
  | c :: rest, .single, acc, _ =>
      if c = '\'' then lexAux rest .normal acc true
      else lexAux rest .single (c :: acc) true
  | c :: rest, .double, acc, _ =>
      if c = '"' then lexAux rest .normal acc true
      else if c = '$' || c = '`' || c = '\\' then none
      else lexAux rest .double (c :: acc) true

/-- Lex a command-line fragment from the initial state. -/
def shellLexChars (s : List Char) : Option (List Tok) := lexAux s .normal [] false

/-- Lex a string fragment. -/
def shellLex (s : String) : Option (List Tok) := shellLexChars s.data

/-! ## Parameter sanitizer (`src/src/main.py`, `__main__` block)

The incoming `BuildRequest` is a JSON object, modelled as an association list
`List (String × Option JVal)`; a key mapped to `none` stands for a JSON
`null` value (`v is None` in the source).  `JVal` models a decoded JSON value
at the granularity the sanitizer inspects it: a string (for the encoded
`user_environment_variables` case and for the three shell-escaped identifier
fields), a list of `name`/`ciphertext` objects, or any other value abstracted
to its Python truthiness.
-/

inductive JVal where
  | str (s : String)
  | jsonList (xs : List (String × String))
  | other (truthy : Bool)
deriving DecidableEq, Repr

/-- Failures of the sanitizer: `KeyError` from a direct `kwargs[...]`
subscript, `json.JSONDecodeError` from `json.loads`, `TypeError` from
`shlex.quote` on a non-string. -/
inductive SanError where
  | keyError (key : String)
  | jsonDecodeError
  | typeError
deriving DecidableEq, Repr

/-- Modelled from the spec: the parameter names accepted by the external
`build` task (`inspect.getfullargspec(build)[0]`).  The `build` task itself is
not part of the two source files; the spec's recognized-field list (§6) and
the process-environment contract give these lower-case Python identifier
names.  They must be lower-case for the sanitizer's own
`kwargs = {k.lower(): v ...}; build(**kwargs)` call to be able to fill them. -/
def buildArguments : List String :=
  ["aws_access_key_id", "aws_secret_access_key", "aws_default_region",
   "baseurl", "branch", "bucket", "build_id", "cache_control", "config",
   "generator", "github_token", "owner", "repository", "site_prefix",
   "user_environment_variables"]

/-- Python's `str.lower()` restricted to ASCII (request keys are parameter
names, ASCII identifiers): map the letters A–Z (codes 65–90) to a–z. -/
def lowerChar (c : Char) : Char :=
  if 65 ≤ c.toNat && c.toNat ≤ 90 then Char.ofNat (c.toNat + 32) else c

def pyLower (s : String) : String := String.mk (s.data.map lowerChar)

/-- `kwargs = {k.lower(): v for (k, v) in params.items()
                if v is not None and k in build_arguments}` —
note the membership test is on `k`, not `k.lower()`: exact, case-sensitive. -/
def sanitizeKwargs (args : List String) (params : List (String × Option JVal)) :
    List (String × JVal) :=
  params.filterMap fun kv =>
    match kv.2 with
    | none => none
    | some v => if kv.1 ∈ args then some (pyLower kv.1, v) else none

/-- The keys reported by the warning loop
`for k in params: if k not in build_arguments: print('WARNING - ...')`. -/
def sanitizeWarnings (args : List String) (params : List (String × Option JVal)) :
    List String :=
  (params.filter fun kv => decide (kv.1 ∉ args)).map (fun kv => kv.1)

/-- Follows the spec's words, for comparison with `sanitizeKwargs` (§4.1:
"Input parameters are matched case-insensitively against the known set"):
a key is retained when it matches some known parameter up to case. -/
def sanitizeKwargsSpecCI (args : List String) (params : List (String × Option JVal)) :
    List (String × JVal) :=
  params.filterMap fun kv =>
    match kv.2 with
    | none => none
    | some v =>
        if args.any (fun a => pyLower a == pyLower kv.1) then
          some (pyLower kv.1, v)
        else none

/-- Dictionary read, `kwargs[k]` as an `Option`. -/
def lookupKw (kwargs : List (String × JVal)) (k : String) : Option JVal :=
  (kwargs.find? fun kv => kv.1 == k).map (fun kv => kv.2)

/-- Dictionary write `kwargs[k] = v` for a key already present (the sanitizer
only assigns keys it has just read). -/
def setKw (kwargs : List (String × JVal)) (k : String) (v : JVal) :
    List (String × JVal) :=
  kwargs.map fun kv => if kv.1 == k then (k, v) else kv

/-- `uevs = kwargs['user_environment_variables']` has already been read;
this is `if uevs and isinstance(uevs, str): kwargs[...] = json.loads(uevs)`.
`parse` stands for the stdlib `json.loads`, `none` meaning it raised. -/
def uevStep (parse : String → Option JVal) (kwargs : List (String × JVal))
    (uevs : JVal) : Except SanError (List (String × JVal)) :=
  match uevs with
  | .str s =>
      if s.isEmpty then .ok kwargs
      else
        match parse s with
        | some v => .ok (setKw kwargs "user_environment_variables" v)
        | none => .error .jsonDecodeError
  | _ => .ok kwargs

/-- `kwargs[key] = shlex.quote(kwargs[key])`: a missing key raises `KeyError`,
a non-string value makes `shlex.quote` raise `TypeError`. -/
def quoteStep (kwargs : List (String × JVal)) (key : String) :
    Except SanError (List (String × JVal)) :=
  match lookupKw kwargs key with
  | none => .error (.keyError key)
  | some (.str s) => .ok (setKw kwargs key (.str (shlex_quote s)))
  | some _ => .error .typeError

/-- The sanitizer tail of the `__main__` block, after the callback-URL
promotion: filter the parameters, then the four direct subscript accesses in
source order (`user_environment_variables`, then `branch`, `owner`,
`repository`). -/
def sanitize (args : List String) (params : List (String × Option JVal))
    (parse : String → Option JVal) : Except SanError (List (String × JVal)) :=
  match lookupKw (sanitizeKwargs args params) "user_environment_variables" with
  | none => .error (.keyError "user_environment_variables")
  | some uevs =>
      match uevStep parse (sanitizeKwargs args params) uevs with
      | .error e => .error e
      | .ok kw1 =>
          match quoteStep kw1 "branch" with
          | .error e => .error e
          | .ok kw2 =>
              match quoteStep kw2 "owner" with
              | .error e => .error e
              | .ok kw3 =>
                  match quoteStep kw3 "repository" with
                  | .error e => .error e
                  | .ok kw4 => .ok kw4

/-- A `json.loads` stand-in for concrete instantiations where parsing is
never reached or never succeeds. -/
def noParse : String → Option JVal := fun _ => none

/-! ## Task runner adapter (`run_task` in `src/tasks/main.py`) -/

/-- The flag rendering loop of `run_task`:
`flag_args.append(f"\x7bflag\x7d=\x7bquoted_val\x7d")` with
`quoted_val = shlex.quote(val)`. -/
def run_task_flag_args (flags_dict : List (String × String)) : List String :=
  flags_dict.map fun fv => fv.1 ++ "=" ++ shlex_quote fv.2

/-- `command = f'inv \x7btask_name\x7d \x7b" ".join(flag_args)\x7d'`. -/
def run_task_command (task_name : String) (flags_dict : List (String × String)) :
    String :=
  "inv " ++ task_name ++ " " ++ String.intercalate " " (run_task_flag_args flags_dict)

/-! ## The pipeline (`main` in `src/tasks/main.py`)

`main` is modelled as a function from a `PipelineEnv` — the build
configuration together with the observable behaviour of every external
collaborator invocation — to the ordered trace of observable events of the
run: notifications posted, the deadline timer entering and leaving scope,
stages and `inv` tasks invoked, and a `SystemExit` process exit.
-/

/-- The four Status Notifier calls. -/
inductive Notification where
  | processing
  | complete
  | error (msg : String)
  | timeout
deriving DecidableEq, Repr

/-- Observable events of one run, in order. -/
inductive Event where
  | notify (n : Notification)
  | timerStart
  | timerStop
  | stageFetch
  | task (name : String) (flags : Option (List (String × String)))
  | stagePublish
  | processExit (code : Nat)
deriving DecidableEq, Repr

/-- Behaviour of one collaborator invocation: it returned normally, raised
invoke's `UnexpectedExit` (whose string the handler forwards), was interrupted
by the deadline signal (`stopit.TimeoutException`), or raised some other
exception (whose message the generic handler discards). -/
inductive StepBeh where
  | ok
  | unexpectedExit (msg : String)
  | timedOut
  | raises (msg : String)
deriving DecidableEq, Repr

/-- How control leaves the `with Timeout(...)` block. `sysExit` is the
`exit(1)` of the fetch-failure branch: `SystemExit` derives from
`BaseException`, so none of the three `except` clauses catches it. -/
inductive BodyExit where
  | normal
  | sysExit
  | timedOut
  | unexpectedExit (msg : String)
  | exc
deriving DecidableEq, Repr

/-- Configuration and collaborator behaviour of one run.  The configuration
fields are the environment variables `main` reads; `decryptedUevs` is the
already-decrypted `decrypted_uevs` list (the `decrypt` collaborator's output).
`completionTimedOut` models the deadline signal firing inside the `with`
block after `publish` returned, while the total-time log line and
`post_build_complete` are still in scope. -/
structure PipelineEnv where
  generator : String
  buildId : String
  configPath : String
  branch : String
  owner : String
  repository : String
  sitePfx : String
  baseurl : String
  decryptedUevs : List (String × String)
  processingRaises : Bool
  fetchBeh : StepBeh
  fetchCode : Nat
  fedScriptBeh : StepBeh
  generatorBuildBeh : StepBeh
  publishBeh : StepBeh
  completionTimedOut : Bool

/-- Minimal model of the stdlib `json.dumps` string escaping, for the
serialization of `decrypted_uevs` (control characters beyond the common
escapes are not modelled). -/
def jsonEscapeChar (c : Char) : List Char :=
  if c = '"' then ['\\', '"']
  else if c = '\\' then ['\\', '\\']
  else if c = '\n' then ['\\', 'n']
  else if c = '\t' then ['\\', 't']
  else if c = '\r' then ['\\', 'r']
  else [c]

def jsonEscape (s : String) : String :=
  String.mk (s.data.foldr (fun c r => jsonEscapeChar c ++ r) [])

/-- One element of `decrypted_uevs`, a `name`/`value` dict, as `json.dumps`
renders it. -/
def jsonDumpUev (uev : String × String) : String :=
  "\x7b\"name\": \"" ++ jsonEscape uev.1 ++ "\", \"value\": \"" ++
    jsonEscape uev.2 ++ "\"\x7d"

/-- `json.dumps(decrypted_uevs)`. -/
def jsonDumpsUevs (uevs : List (String × String)) : String :=
  "[" ++ String.intercalate ", " (uevs.map jsonDumpUev) ++ "]"

/-- `BUILD_INFO = f'\x7bOWNER\x7d/\x7bREPOSITORY\x7d@id:\x7bBUILD_ID\x7d'`. -/
def buildInfo (env : PipelineEnv) : String :=
  env.owner ++ "/" ++ env.repository ++ "@id:" ++ env.buildId

/-- The `build_flags` dict, in insertion order. -/
def buildFlags (env : PipelineEnv) : List (String × String) :=
  [("--branch", env.branch),
   ("--owner", env.owner),
   ("--repository", env.repository),
   ("--site-prefix", env.sitePfx),
   ("--base-url", env.baseurl),
   ("--user-env-vars", jsonDumpsUevs env.decryptedUevs)]

/-- The fixed fetch-failure diagnostic posted when `fetch_repo` returns a
non-zero code. -/
def fetchErrorMsg : String :=
  "There was a problem fetching the repository, see the above logs for details."

/-- The generic message of the `except Exception` handler. -/
def unexpectedErrorMsg (info : String) : String :=
  "Unexpected build(" ++ info ++ ") error. Please try again and contact" ++
    " federalist-support if it persists."

/-- One `run(task, flags)` invocation inside the `with Timeout` block: the
task is recorded as invoked, then either the continuation `k` runs or the
invocation's exception aborts the block. -/
def stepEvents (name : String) (flags : Option (List (String × String)))
    (beh : StepBeh) (k : Unit → List Event × BodyExit) : List Event × BodyExit :=
  match beh with
  | .ok => (Event.task name flags :: (k ()).1, (k ()).2)
  | .timedOut => ([Event.task name flags], .timedOut)
  | .unexpectedExit m => ([Event.task name flags], .unexpectedExit m)
  | .raises _ => ([Event.task name flags], .exc)

/-- The tail of the `with` block: `publish(...)`, the total-time log line and
`post_build_complete`.  The completion notification is still inside the
`Timeout` scope. -/
def publishPhase (env : PipelineEnv) : List Event × BodyExit :=
  match env.publishBeh with
  | .ok =>
      if env.completionTimedOut then ([Event.stagePublish], .timedOut)
      else ([Event.stagePublish, Event.notify Notification.complete], .normal)
  | .timedOut => ([Event.stagePublish], .timedOut)
  | .unexpectedExit m => ([Event.stagePublish], .unexpectedExit m)
  | .raises _ => ([Event.stagePublish], .exc)

/-- The generator dispatch of the BUILD section, then PUBLISH.  An
unrecognized generator raises `ValueError(f'Invalid GENERATOR: ...')`, which
only the generic `except Exception` handler catches. -/
def dispatch (env : PipelineEnv) : List Event × BodyExit :=
  if env.generator = "jekyll" then
    stepEvents "build-jekyll"
      (some (buildFlags env ++ [("--config", env.configPath)]))
      env.generatorBuildBeh (fun _ => publishPhase env)
  else if env.generator = "hugo" then
    stepEvents "build-hugo" (some (buildFlags env))
      env.generatorBuildBeh (fun _ => publishPhase env)
  else if env.generator = "static" then
    stepEvents "build-static" none env.generatorBuildBeh (fun _ => publishPhase env)
  else if env.generator = "node.js" ∨ env.generator = "script only" then
    publishPhase env
  else
    ([], .exc)

/-- The BUILD section: `run('run-federalist-script', build_flags)` always
comes first, for every generator, then the dispatch. -/
def buildPhase (env : PipelineEnv) : List Event × BodyExit :=
  stepEvents "run-federalist-script" (some (buildFlags env)) env.fedScriptBeh
    (fun _ => dispatch env)

/-- The body of the `with Timeout(TIMEOUT_SECONDS)` block: FETCH, then the
explicit return-code check (whose failure posts the fixed error and calls
`exit(1)`), then BUILD and PUBLISH. -/
def body (env : PipelineEnv) : List Event × BodyExit :=
  match env.fetchBeh with
  | .timedOut => ([Event.stageFetch], .timedOut)
  | .unexpectedExit m => ([Event.stageFetch], .unexpectedExit m)
  | .raises _ => ([Event.stageFetch], .exc)
  | .ok =>
      if env.fetchCode ≠ 0 then
        ([Event.stageFetch, Event.notify (Notification.error fetchErrorMsg)],
         BodyExit.sysExit)
      else
        (Event.stageFetch :: (buildPhase env).1, (buildPhase env).2)

/-- The `except` clauses: `TimeoutException` posts the timeout notification,
`UnexpectedExit` posts an error with the stringified failure, any other
`Exception` posts an error with the generic support message.  `SystemExit`
from `exit(1)` is a `BaseException` and propagates as the process exit. -/
def exitEvents (env : PipelineEnv) : BodyExit → List Event
  | .normal => []
  | .sysExit => [Event.processExit 1]
  | .timedOut => [Event.notify Notification.timeout]
  | .unexpectedExit m => [Event.notify (Notification.error m)]
  | .exc => [Event.notify (Notification.error (unexpectedErrorMsg (buildInfo env)))]

/-- The `main` task.  `post_build_processing` runs inside the `try` but
before the `with Timeout(...)` block; if it raises, control reaches the
generic `except Exception` handler without any stage having run. -/
def main (env : PipelineEnv) : List Event :=
  if env.processingRaises then
    [Event.notify (Notification.error (unexpectedErrorMsg (buildInfo env)))]
  else
    Event.notify Notification.processing :: Event.timerStart ::
      ((body env).1 ++ Event.timerStop :: exitEvents env (body env).2)

/-! ### Trace observations -/

def notificationsOf (evts : List Event) : List Notification :=
  evts.filterMap fun e =>
    match e with
    | .notify n => some n
    | _ => none

/-- A terminal outcome: complete, error, or timeout. -/
def isTerminal : Notification → Bool
  | .processing => false
  | _ => true

def terminalsOf (evts : List Event) : List Notification :=
  (notificationsOf evts).filter isTerminal

def tasksOf (evts : List Event) : List (String × Option (List (String × String))) :=
  evts.filterMap fun e =>
    match e with
    | .task n f => some (n, f)
    | _ => none

def exitsNonzero (evts : List Event) : Bool :=
  evts.any fun e =>
    match e with
    | .processExit c => c != 0
    | _ => false

/-! ### Concrete runs used by witnesses and counterexamples -/

def envBase : PipelineEnv :=
  { generator := "static"
    buildId := "42"
    configPath := "_config.yml"
    branch := "main"
    owner := "octo"
    repository := "site"
    sitePfx := "preview/octo/site"
    baseurl := "/preview/octo/site"
    decryptedUevs := []
    processingRaises := false
    fetchBeh := .ok
    fetchCode := 0
    fedScriptBeh := .ok
    generatorBuildBeh := .ok
    publishBeh := .ok
    completionTimedOut := false }

/-- A run whose deadline fires after `publish` succeeded, while the
completion section is still inside the `Timeout` scope. -/
def envLateTimeout : PipelineEnv := { envBase with completionTimedOut := true }

/-- A run whose initial processing notification raises. -/
def envProcFail : PipelineEnv := { envBase with processingRaises := true }

/-- A run whose fetch returns exit code 1. -/
def envFetchFail : PipelineEnv := { envBase with fetchCode := 1 }

/-- A hugo run with one decrypted user environment variable. -/
def envHugoUev : PipelineEnv :=
  { envBase with generator := "hugo", decryptedUevs := [("API_KEY", "sekret")] }

/-- A run with an unrecognized generator. -/
def envBadGen : PipelineEnv := { envBase with generator := "bogus" }

/-! ## Secret set builder (`private_values` in `src/tasks/main.py`)

The source reads `AWS_ACCESS_KEY_ID`, `AWS_SECRET_ACCESS_KEY` and
`GITHUB_TOKEN` (defaulted to `''`) from the process environment; they are
explicit parameters here.  `if GITHUB_TOKEN:` is string truthiness:
append only when non-empty.
-/

def private_values (awsAccessKeyId awsSecretAccessKey githubToken : String)
    (user_values : List String) : List String :=
  let priv_vals := [awsAccessKeyId, awsSecretAccessKey]
  let priv_vals :=
    if githubToken.isEmpty then priv_vals else priv_vals ++ [githubToken]
  priv_vals ++ user_values

/-! ### Lexer lemmas -/

theorem safe_char_facts (c : Char) (h : isSafeCode c.toNat = true) :
    c ≠ '\'' ∧ c ≠ '"' ∧ c ≠ '$' ∧ c ≠ '`' ∧ c ≠ '\\' ∧
    isSpaceCode c.toNat = false ∧ isOpCode c.toNat = false ∧
    isRefusedCode c.toNat = false := by
  simp only [isSafeCode, Bool.or_eq_true, Bool.and_eq_true, decide_eq_true_eq] at h
  refine ⟨?_, ?_, ?_, ?_, ?_, ?_, ?_, ?_⟩
  · rintro rfl; revert h; decide
  · rintro rfl; revert h; decide
  · rintro rfl; revert h; decide
  · rintro rfl; revert h; decide
  · rintro rfl; revert h; decide
  · simp only [isSpaceCode, Bool.or_eq_false_iff, decide_eq_false_iff_not]; omega
  · simp only [isOpCode, Bool.or_eq_false_iff, decide_eq_false_iff_not]; omega
  · simp only [isRefusedCode, Bool.or_eq_false_iff, decide_eq_false_iff_not]; omega

theorem lexAux_safe_cons (c : Char) (h : isSafeCode c.toNat = true)
    (rest acc : List Char) (b : Bool) :
    lexAux (c :: rest) .normal acc b = lexAux rest .normal (c :: acc) true := by
  obtain ⟨h1, h2, _, _, _, h6, h7, h8⟩ := safe_char_facts c h
  simp [lexAux, h1, h2, h6, h7, h8]

/-- A run of safe characters is accumulated into the current word. -/
theorem lexAux_safe_run (p : List Char)
    (hp : p.all (fun c => isSafeCode c.toNat) = true) :
    ∀ (rest acc : List Char) (b : Bool),
      lexAux (p ++ rest) .normal acc b =
        lexAux rest .normal (p.reverse ++ acc) (b || !p.isEmpty) := by
  induction p with
  | nil => intro rest acc b; simp
  | cons c cs ih =>
      intro rest acc b
      rw [List.all_cons, Bool.and_eq_true] at hp
      rw [List.cons_append, lexAux_safe_cons c hp.1, ih hp.2]
      simp

/-- Scanning the `escInner` body inside single quotes accumulates exactly the
original characters and, at the closing quote, returns to the normal state. -/
theorem lexAux_escInner (s : List Char) :
    ∀ (rest acc : List Char),
      lexAux (escInner s ++ ('\'' :: rest)) .single acc true =
        lexAux rest .normal (s.reverse ++ acc) true := by
  induction s with
  | nil => intro rest acc; simp [escInner, lexAux]
  | cons c cs ih =>
      intro rest acc
      by_cases hc : c = '\''
      · subst hc
        rw [escInner, if_pos rfl, List.append_assoc]
        show lexAux ('\'' :: '"' :: '\'' :: '"' :: '\'' :: (escInner cs ++ _)) .single _ _ = _
        rw [show ∀ l a, lexAux ('\'' :: l) .single a true = lexAux l .normal a true by
              intro l a; simp [lexAux]]
        rw [show ∀ l a, lexAux ('"' :: l) .normal a true = lexAux l .double a true by
              intro l a; simp [lexAux]]
        rw [show ∀ l a, lexAux ('\'' :: l) .double a true = lexAux l .double ('\'' :: a) true by
              intro l a; simp [lexAux]]
        rw [show ∀ l a, lexAux ('"' :: l) .double a true = lexAux l .normal a true by
              intro l a; simp [lexAux]]
        rw [show ∀ l a, lexAux ('\'' :: l) .normal a true = lexAux l .single a true by
              intro l a; simp [lexAux]]
        rw [ih]
        simp
      · rw [escInner, if_neg hc, List.append_assoc, List.singleton_append]
        rw [show ∀ l a, lexAux (c :: l) .single a true = lexAux l .single (c :: a) true by
              intro l a; simp [lexAux, hc]]
        rw [ih]
        simp

/-- Key compositional lemma: the output of `shlex.quote` is always consumed as
one uninterrupted extension of the current word, for every input string. -/
theorem lexAux_quote (v : List Char) :
    ∀ (rest acc : List Char) (b : Bool),
      lexAux (quoteChars v ++ rest) .normal acc b =
        lexAux rest .normal (v.reverse ++ acc) true := by
  intro rest acc b
  cases v with
  | nil => simp [quoteChars, lexAux]
  | cons c cs =>
      by_cases hs : (c :: cs).all (fun x => isSafeCode x.toNat)
      · rw [show quoteChars (c :: cs) = c :: cs by simp [quoteChars, hs]]
        rw [lexAux_safe_run _ hs]
        simp
      · rw [show quoteChars (c :: cs) = '\'' :: (escInner (c :: cs) ++ ['\'']) by
              simp [quoteChars, hs]]
        show lexAux ('\'' :: ((escInner (c :: cs) ++ ['\'']) ++ rest)) .normal _ _ = _
        rw [show ∀ l a (x : Bool), lexAux ('\'' :: l) .normal a x = lexAux l .single a true by
              intro l a x; simp [lexAux]]
        rw [List.append_assoc]
        show lexAux (escInner (c :: cs) ++ ('\'' :: rest)) .single _ _ = _
        rw [lexAux_escInner]

/-- The quoted value alone lexes to exactly one literal word, the original
string, for every input. -/
theorem shellLex_quote (v : List Char) :
    shellLexChars (quoteChars v) = some [Tok.word v] := by
  have h := lexAux_quote v [] [] false
  rw [List.append_nil] at h
  rw [shellLexChars, h]
  simp [lexAux]

/-- A `--flag=` prefix of safe characters followed by a quoted value lexes to
exactly one literal word `--flag=value`. -/
theorem shellLex_flag (flag v : List Char)
    (hflag : flag.all (fun c => isSafeCode c.toNat) = true) :
    shellLexChars (flag ++ '=' :: quoteChars v) = some [Tok.word (flag ++ '=' :: v)] := by
  have hall : (flag ++ ['=']).all (fun c => isSafeCode c.toNat) = true := by
    rw [List.all_append, hflag]
    decide
  have hshape : flag ++ '=' :: quoteChars v = (flag ++ ['=']) ++ (quoteChars v ++ []) := by
    simp
  rw [shellLexChars, hshape, lexAux_safe_run _ hall, lexAux_quote]
  simp [lexAux]

/-! ### Trace observation lemmas -/

theorem notificationsOf_nil : notificationsOf [] = [] := rfl

theorem notificationsOf_cons (e : Event) (l : List Event) :
    notificationsOf (e :: l) =
      (match e with | .notify n => some n | _ => none).toList ++ notificationsOf l := by
  cases e <;> simp [notificationsOf]

theorem terminalsOf_append (a b : List Event) :
    terminalsOf (a ++ b) = terminalsOf a ++ terminalsOf b := by
  simp [terminalsOf, notificationsOf]

theorem terminalsOf_cons_nonnotify (e : Event) (l : List Event)
    (h : ∀ n, e ≠ Event.notify n) :
    terminalsOf (e :: l) = terminalsOf l := by
  cases e <;> first
    | exact absurd rfl (h _)
    | simp [terminalsOf, notificationsOf]

theorem terminalsOf_cons_processing (l : List Event) :
    terminalsOf (Event.notify Notification.processing :: l) = terminalsOf l := by
  simp [terminalsOf, notificationsOf, isTerminal]

/-! ### One terminal notification per run (towards claim C1) -/

theorem publishPhase_terminals (env : PipelineEnv) :
    (terminalsOf (publishPhase env).1).length +
      (terminalsOf (exitEvents env (publishPhase env).2)).length = 1 := by
  cases h : env.publishBeh <;> cases hc : env.completionTimedOut <;>
    simp [publishPhase, h, hc, exitEvents, terminalsOf, notificationsOf, isTerminal]

theorem stepEvents_terminals (env : PipelineEnv) (name : String)
    (flags : Option (List (String × String))) (beh : StepBeh)
    (k : Unit → List Event × BodyExit)
    (hk : (terminalsOf (k ()).1).length +
        (terminalsOf (exitEvents env (k ()).2)).length = 1) :
    (terminalsOf (stepEvents name flags beh k).1).length +
      (terminalsOf (exitEvents env (stepEvents name flags beh k).2)).length = 1 := by
  cases beh <;>
    simp_all [stepEvents, exitEvents, terminalsOf, notificationsOf, isTerminal]

theorem dispatch_terminals (env : PipelineEnv) :
    (terminalsOf (dispatch env).1).length +
      (terminalsOf (exitEvents env (dispatch env).2)).length = 1 := by
  by_cases h1 : env.generator = "jekyll"
  · rw [dispatch, if_pos h1]
    exact stepEvents_terminals env _ _ _ _ (publishPhase_terminals env)
  · rw [dispatch, if_neg h1]
    by_cases h2 : env.generator = "hugo"
    · rw [if_pos h2]
      exact stepEvents_terminals env _ _ _ _ (publishPhase_terminals env)
    · rw [if_neg h2]
      by_cases h3 : env.generator = "static"
      · rw [if_pos h3]
        exact stepEvents_terminals env _ _ _ _ (publishPhase_terminals env)
      · rw [if_neg h3]
        by_cases h4 : env.generator = "node.js" ∨ env.generator = "script only"
        · rw [if_pos h4]
          exact publishPhase_terminals env
        · rw [if_neg h4]
          simp [exitEvents, terminalsOf, notificationsOf, isTerminal]

theorem body_terminals (env : PipelineEnv) :
    (terminalsOf (body env).1).length +
      (terminalsOf (exitEvents env (body env).2)).length = 1 := by
  cases hf : env.fetchBeh
  case timedOut =>
    simp [body, hf, exitEvents, terminalsOf, notificationsOf, isTerminal]
  case unexpectedExit m =>
    simp [body, hf, exitEvents, terminalsOf, notificationsOf, isTerminal]
  case raises m =>
    simp [body, hf, exitEvents, terminalsOf, notificationsOf, isTerminal]
  case ok =>
    by_cases h0 : env.fetchCode ≠ 0
    · simp [body, hf, h0, exitEvents, terminalsOf, notificationsOf, isTerminal]
    · rw [body]
      simp only [hf, if_neg h0]
      rw [terminalsOf_cons_nonnotify _ _ (by intro n h; cases h)]
      show (terminalsOf (buildPhase env).1).length +
        (terminalsOf (exitEvents env (buildPhase env).2)).length = 1
      exact stepEvents_terminals env _ _ _ _ (dispatch_terminals env)

/-! ### Per-constructor observation rewrites -/

@[simp] theorem notificationsOf_cons_notify (n : Notification) (l : List Event) :
    notificationsOf (Event.notify n :: l) = n :: notificationsOf l := rfl

@[simp] theorem notificationsOf_cons_timerStart (l : List Event) :
    notificationsOf (Event.timerStart :: l) = notificationsOf l := rfl

@[simp] theorem notificationsOf_cons_timerStop (l : List Event) :
    notificationsOf (Event.timerStop :: l) = notificationsOf l := rfl

@[simp] theorem notificationsOf_cons_stageFetch (l : List Event) :
    notificationsOf (Event.stageFetch :: l) = notificationsOf l := rfl

@[simp] theorem notificationsOf_cons_task (n : String)
    (f : Option (List (String × String))) (l : List Event) :
    notificationsOf (Event.task n f :: l) = notificationsOf l := rfl

@[simp] theorem notificationsOf_cons_stagePublish (l : List Event) :
    notificationsOf (Event.stagePublish :: l) = notificationsOf l := rfl

@[simp] theorem notificationsOf_cons_processExit (c : Nat) (l : List Event) :
    notificationsOf (Event.processExit c :: l) = notificationsOf l := rfl

@[simp] theorem notificationsOf_append (a b : List Event) :
    notificationsOf (a ++ b) = notificationsOf a ++ notificationsOf b := by
  simp [notificationsOf]

@[simp] theorem terminalsOf_nil : terminalsOf [] = [] := rfl

@[simp] theorem terminalsOf_cons_proc (l : List Event) :
    terminalsOf (Event.notify Notification.processing :: l) = terminalsOf l := rfl

@[simp] theorem terminalsOf_cons_complete (l : List Event) :
    terminalsOf (Event.notify Notification.complete :: l) =
      Notification.complete :: terminalsOf l := rfl

@[simp] theorem terminalsOf_cons_error (m : String) (l : List Event) :
    terminalsOf (Event.notify (Notification.error m) :: l) =
      Notification.error m :: terminalsOf l := rfl

@[simp] theorem terminalsOf_cons_timeout (l : List Event) :
    terminalsOf (Event.notify Notification.timeout :: l) =
      Notification.timeout :: terminalsOf l := rfl

@[simp] theorem terminalsOf_cons_timerStart (l : List Event) :
    terminalsOf (Event.timerStart :: l) = terminalsOf l := rfl

@[simp] theorem terminalsOf_cons_timerStop (l : List Event) :
    terminalsOf (Event.timerStop :: l) = terminalsOf l := rfl

@[simp] theorem terminalsOf_cons_stageFetch (l : List Event) :
    terminalsOf (Event.stageFetch :: l) = terminalsOf l := rfl

@[simp] theorem terminalsOf_cons_task (n : String)
    (f : Option (List (String × String))) (l : List Event) :
    terminalsOf (Event.task n f :: l) = terminalsOf l := rfl

@[simp] theorem terminalsOf_cons_stagePublish (l : List Event) :
    terminalsOf (Event.stagePublish :: l) = terminalsOf l := rfl

@[simp] theorem terminalsOf_cons_processExit (c : Nat) (l : List Event) :
    terminalsOf (Event.processExit c :: l) = terminalsOf l := rfl

@[simp] theorem tasksOf_nil : tasksOf [] = [] := rfl

@[simp] theorem tasksOf_cons_notify (n : Notification) (l : List Event) :
    tasksOf (Event.notify n :: l) = tasksOf l := rfl

@[simp] theorem tasksOf_cons_timerStart (l : List Event) :
    tasksOf (Event.timerStart :: l) = tasksOf l := rfl

@[simp] theorem tasksOf_cons_timerStop (l : List Event) :
    tasksOf (Event.timerStop :: l) = tasksOf l := rfl

@[simp] theorem tasksOf_cons_stageFetch (l : List Event) :
    tasksOf (Event.stageFetch :: l) = tasksOf l := rfl

@[simp] theorem tasksOf_cons_stagePublish (l : List Event) :
    tasksOf (Event.stagePublish :: l) = tasksOf l := rfl

@[simp] theorem tasksOf_cons_processExit (c : Nat) (l : List Event) :
    tasksOf (Event.processExit c :: l) = tasksOf l := rfl

@[simp] theorem tasksOf_cons_task (n : String)
    (f : Option (List (String × String))) (l : List Event) :
    tasksOf (Event.task n f :: l) = (n, f) :: tasksOf l := rfl

@[simp] theorem tasksOf_append (a b : List Event) :
    tasksOf (a ++ b) = tasksOf a ++ tasksOf b := by
  simp [tasksOf]

theorem tasksOf_exitEvents (env : PipelineEnv) (x : BodyExit) :
    tasksOf (exitEvents env x) = [] := by
  cases x <;> simp [exitEvents]

theorem tasksOf_publishPhase (env : PipelineEnv) :
    tasksOf (publishPhase env).1 = [] := by
  cases h : env.publishBeh <;> cases hc : env.completionTimedOut <;>
    simp [publishPhase, h, hc]

/-! ### Shape of the trace under the common hypotheses -/

theorem main_eq_of_processing_ok (env : PipelineEnv)
    (hp : env.processingRaises = false) :
    main env = Event.notify Notification.processing :: Event.timerStart ::
      ((body env).1 ++ Event.timerStop :: exitEvents env (body env).2) := by
  rw [main, if_neg (by simp [hp])]

theorem body_eq_of_fetch_ok (env : PipelineEnv) (hf : env.fetchBeh = StepBeh.ok)
    (hc : env.fetchCode = 0) :
    body env = (Event.stageFetch :: (buildPhase env).1, (buildPhase env).2) := by
  rw [body]
  simp [hf, hc]

/-- The two user-facing error messages differ: the generic support message
starts with the letter U, the fetch diagnostic with the letter T. -/
theorem unexpectedErrorMsg_ne_fetch (info : String) :
    unexpectedErrorMsg info ≠ fetchErrorMsg := by
  intro h
  have h1 : (unexpectedErrorMsg info).data.head? = some 'U' := by
    cases info
    rfl
  rw [h] at h1
  exact absurd h1 (by decide)

/-- Claim C1: for every run of the pipeline `main`, over every reachable
control-flow path (processing-notification failure, fetch failure or
exception, build-script/generator-build/publish failure or timeout, invalid
generator, success, deadline exceeded — every `PipelineEnv`), exactly one of
the three terminal notifications (complete, error, timeout) is emitted:
never zero and never more than one. -/
theorem c1_exactly_one_terminal (env : PipelineEnv) :
    (terminalsOf (main env)).length = 1 := by
  cases hp : env.processingRaises with
  | true =>
      rw [main, if_pos hp]
      simp [terminalsOf, notificationsOf, isTerminal]
  | false =>
      rw [main, if_neg (by simp [hp])]
      rw [terminalsOf_cons_processing,
        terminalsOf_cons_nonnotify _ _ (by intro n h; cases h),
        terminalsOf_append,
        terminalsOf_cons_nonnotify _ _ (by intro n h; cases h),
        List.length_append]
      exact body_terminals env

/-- Claim C4: a non-zero fetch exit code sends the pipeline directly to the
error outcome with the fixed fetch-failure diagnostic — the message is the
constant `fetchErrorMsg`, independent of the actual code, so the raw exit
code is not forwarded — no build task and no publish stage is ever invoked,
and the process exits with a non-zero status. -/
theorem c4_fetch_failure (env : PipelineEnv) (hp : env.processingRaises = false)
    (hf : env.fetchBeh = StepBeh.ok) (hc : env.fetchCode ≠ 0) :
    main env = [Event.notify Notification.processing, Event.timerStart,
      Event.stageFetch, Event.notify (Notification.error fetchErrorMsg),
      Event.timerStop, Event.processExit 1] ∧
    terminalsOf (main env) = [Notification.error fetchErrorMsg] ∧
    tasksOf (main env) = [] ∧
    Event.stagePublish ∉ main env ∧
    exitsNonzero (main env) = true := by
  have hm : main env = [Event.notify Notification.processing, Event.timerStart,
      Event.stageFetch, Event.notify (Notification.error fetchErrorMsg),
      Event.timerStop, Event.processExit 1] := by
    rw [main_eq_of_processing_ok env hp, body]
    simp [hf, hc, exitEvents]
  refine ⟨hm, ?_, ?_, ?_, ?_⟩ <;> rw [hm] <;> decide

/-- Witness for C4: the concrete run `envFetchFail` (fetch returns 1). -/
theorem c4_fetch_failure_witness :
    terminalsOf (main envFetchFail) = [Notification.error fetchErrorMsg] ∧
    tasksOf (main envFetchFail) = [] ∧
    exitsNonzero (main envFetchFail) = true := by
  have h := c4_fetch_failure envFetchFail rfl rfl (by decide)
  exact ⟨h.2.1, h.2.2.1, h.2.2.2.2⟩

/-- Claim C5: in the BUILD section the optional project build script
(`run-federalist-script`) is always the first task invoked, for every
generator value; then the dispatch runs `build-jekyll` with the extra
`--config` flag for `jekyll`, `build-hugo` with the generator flags for
`hugo`, `build-static` with no flags for `static`, nothing further for
`node.js` / `script only`, and any other generator value fails immediately
and terminally (the `ValueError` reaches the generic handler), producing one
error notification whose message is distinct from the fetch-failure
message. -/
theorem c5_generator_dispatch (env : PipelineEnv)
    (hp : env.processingRaises = false) (hf : env.fetchBeh = StepBeh.ok)
    (hc : env.fetchCode = 0) :
    (tasksOf (main env)).head? =
      some ("run-federalist-script", some (buildFlags env)) ∧
    (env.fedScriptBeh = StepBeh.ok →
      (env.generator = "jekyll" →
        tasksOf (main env) = [("run-federalist-script", some (buildFlags env)),
          ("build-jekyll", some (buildFlags env ++ [("--config", env.configPath)]))]) ∧
      (env.generator = "hugo" →
        tasksOf (main env) = [("run-federalist-script", some (buildFlags env)),
          ("build-hugo", some (buildFlags env))]) ∧
      (env.generator = "static" →
        tasksOf (main env) = [("run-federalist-script", some (buildFlags env)),
          ("build-static", none)]) ∧
      (env.generator = "node.js" ∨ env.generator = "script only" →
        tasksOf (main env) = [("run-federalist-script", some (buildFlags env))]) ∧
      (env.generator ≠ "jekyll" → env.generator ≠ "hugo" →
        env.generator ≠ "static" → env.generator ≠ "node.js" →
        env.generator ≠ "script only" →
        terminalsOf (main env) =
          [Notification.error (unexpectedErrorMsg (buildInfo env))] ∧
        Event.stagePublish ∉ main env ∧
        unexpectedErrorMsg (buildInfo env) ≠ fetchErrorMsg)) := by
  have hm := main_eq_of_processing_ok env hp
  rw [body_eq_of_fetch_ok env hf hc] at hm
  constructor
  · rw [hm]
    cases hfs : env.fedScriptBeh <;>
      simp [buildPhase, stepEvents, hfs, tasksOf_exitEvents]
  · intro hfs
    refine ⟨?_, ?_, ?_, ?_, ?_⟩
    · intro hg
      rw [hm]
      cases hgb : env.generatorBuildBeh <;>
        simp [buildPhase, stepEvents, hfs, dispatch, hg, hgb,
          tasksOf_exitEvents, tasksOf_publishPhase]
    · intro hg
      rw [hm]
      cases hgb : env.generatorBuildBeh <;>
        simp [buildPhase, stepEvents, hfs, dispatch, hg, hgb,
          tasksOf_exitEvents, tasksOf_publishPhase]
    · intro hg
      rw [hm]
      cases hgb : env.generatorBuildBeh <;>
        simp [buildPhase, stepEvents, hfs, dispatch, hg, hgb,
          tasksOf_exitEvents, tasksOf_publishPhase]
    · intro hg
      rw [hm]
      simp [buildPhase, stepEvents, hfs, dispatch, hg,
        tasksOf_exitEvents, tasksOf_publishPhase]
      rcases hg with hg | hg <;>
        simp [hg, tasksOf_exitEvents, tasksOf_publishPhase]
    · intro h1 h2 h3 h4 h5
      refine ⟨?_, ?_, unexpectedErrorMsg_ne_fetch (buildInfo env)⟩
      · rw [hm]
        simp [buildPhase, stepEvents, hfs, dispatch, h1, h2, h3, h4, h5,
          exitEvents]
      · rw [hm]
        simp [buildPhase, stepEvents, hfs, dispatch, h1, h2, h3, h4, h5,
          exitEvents]

/-- Witness for C5: a concrete jekyll run and the concrete bogus-generator
run `envBadGen`. -/
theorem c5_generator_dispatch_witness :
    tasksOf (main { envBase with generator := "jekyll" }) =
      [("run-federalist-script", some (buildFlags { envBase with generator := "jekyll" })),
       ("build-jekyll", some (buildFlags { envBase with generator := "jekyll" } ++
          [("--config", envBase.configPath)]))] ∧
    terminalsOf (main envBadGen) =
      [Notification.error (unexpectedErrorMsg (buildInfo envBadGen))] ∧
    unexpectedErrorMsg (buildInfo envBadGen) ≠ fetchErrorMsg := by
  have hj := c5_generator_dispatch { envBase with generator := "jekyll" } rfl rfl rfl
  have hb := c5_generator_dispatch envBadGen rfl rfl rfl
  have hbad := (hb.2 rfl).2.2.2.2 (by decide) (by decide) (by decide) (by decide) (by decide)
  exact ⟨(hj.2 rfl).1 rfl, hbad.1, hbad.2.2⟩

/-- Claim C6 counterexample: in the concrete run `envLateTimeout` the publish
stage has completed, yet the deadline fires afterwards — the total-time log
line and `post_build_complete` sit inside the `with Timeout(...)` block — so
the run ends in the timeout outcome and no completion notification is sent.
This refutes "nothing after the publish stage is subject to the deadline". -/
theorem c6_deadline_scope_counterexample :
    Event.stagePublish ∈ main envLateTimeout ∧
    terminalsOf (main envLateTimeout) = [Notification.timeout] ∧
    Notification.complete ∉ notificationsOf (main envLateTimeout) := by
  decide

/-- Claim C6, amended: the processing notification is emitted before the
deadline clock starts, and setup is not time-boxed (a setup failure yields an
error outcome with no timer ever started); however the deadline scope extends
past the publish stage: the total-time log and the completion notification
also run inside it, so a run can still end in timeout after publish
succeeded. -/
theorem c6_deadline_scope (env : PipelineEnv) :
    (env.processingRaises = false →
      (main env).take 2 = [Event.notify Notification.processing, Event.timerStart]) ∧
    (env.processingRaises = true →
      terminalsOf (main env) =
        [Notification.error (unexpectedErrorMsg (buildInfo env))] ∧
      Event.timerStart ∉ main env) ∧
    (env.processingRaises = false → env.fetchBeh = StepBeh.ok →
      env.fetchCode = 0 → env.fedScriptBeh = StepBeh.ok →
      env.generator = "static" → env.generatorBuildBeh = StepBeh.ok →
      env.publishBeh = StepBeh.ok → env.completionTimedOut = true →
      Event.stagePublish ∈ main env ∧
      terminalsOf (main env) = [Notification.timeout] ∧
      Notification.complete ∉ notificationsOf (main env)) := by
  refine ⟨?_, ?_, ?_⟩
  · intro hp
    rw [main_eq_of_processing_ok env hp]
    rfl
  · intro hp
    rw [main, if_pos hp]
    constructor
    · rfl
    · simp
  · intro hp hf hc hfs hg hgb hpub hct
    have hm := main_eq_of_processing_ok env hp
    rw [body_eq_of_fetch_ok env hf hc] at hm
    rw [hm]
    simp [buildPhase, stepEvents, hfs, dispatch, hg, hgb, publishPhase,
      hpub, hct, exitEvents, notificationsOf]

/-- Witness for C6 (amended) at the concrete runs `envBase` and
`envLateTimeout`. -/
theorem c6_deadline_scope_witness :
    (main envBase).take 2 =
      [Event.notify Notification.processing, Event.timerStart] ∧
    terminalsOf (main envLateTimeout) = [Notification.timeout] := by
  refine ⟨(c6_deadline_scope envBase).1 rfl, ?_⟩
  exact ((c6_deadline_scope envLateTimeout).2.2 rfl rfl rfl rfl rfl rfl rfl rfl).2.1

/-- Claim C7 counterexample: in the concrete run `envProcFail` the initial
processing notification raises, and the run does not proceed — no fetch, no
task, no publish; the generic `except Exception` handler posts one error
notification instead.  This refutes "the run still proceeds through the
fetch, build, and publish stages". -/
theorem c7_processing_failure_counterexample :
    Event.stageFetch ∉ main envProcFail ∧
    tasksOf (main envProcFail) = [] ∧
    Event.stagePublish ∉ main envProcFail ∧
    terminalsOf (main envProcFail) =
      [Notification.error (unexpectedErrorMsg (buildInfo envProcFail))] := by
  decide

/-- Claim C7, amended: if delivery of the initial processing notification
raises, the run aborts before any stage: `post_build_processing` sits inside
the `try`, so the generic handler emits one error notification (with the
generic support message) and fetch, build and publish are never invoked — a
processing-notification failure IS treated as a pipeline failure. -/
theorem c7_processing_failure_fatal (env : PipelineEnv)
    (hp : env.processingRaises = true) :
    main env = [Event.notify (Notification.error (unexpectedErrorMsg (buildInfo env)))] ∧
    Event.stageFetch ∉ main env ∧
    tasksOf (main env) = [] ∧
    Event.stagePublish ∉ main env ∧
    terminalsOf (main env) =
      [Notification.error (unexpectedErrorMsg (buildInfo env))] := by
  have hm : main env =
      [Event.notify (Notification.error (unexpectedErrorMsg (buildInfo env)))] := by
    rw [main, if_pos hp]
  refine ⟨hm, ?_, ?_, ?_, ?_⟩ <;> rw [hm] <;> simp

/-- Witness for C7 (amended) at the concrete run `envProcFail`. -/
theorem c7_processing_failure_fatal_witness :
    main envProcFail =
      [Event.notify (Notification.error (unexpectedErrorMsg (buildInfo envProcFail)))] ∧
    tasksOf (main envProcFail) = [] := by
  have h := c7_processing_failure_fatal envProcFail rfl
  exact ⟨h.1, h.2.2.1⟩

/-! ### String-level quoting lemmas -/

theorem shlex_quote_data (s : String) : (shlex_quote s).data = quoteChars s.data :=
  rfl

theorem shellLex_quote_str (v : String) :
    shellLex (shlex_quote v) = some [Tok.word v.data] := by
  rw [shellLex, shlex_quote_data]
  exact shellLex_quote v.data

theorem shellLex_flag_str (flag v : String)
    (hflag : flag.data.all (fun c => isSafeCode c.toNat) = true) :
    shellLex (flag ++ "=" ++ shlex_quote v) =
      some [Tok.word (flag.data ++ '=' :: v.data)] := by
  have hdata : (flag ++ "=" ++ shlex_quote v).data =
      flag.data ++ '=' :: quoteChars v.data := by
    rw [String.data_append, String.data_append, shlex_quote_data]
    simp
  rw [shellLex, hdata]
  exact shellLex_flag flag.data v.data hflag

/-- Claim C2: for every user-supplied value — including values containing
shell metacharacters — the `shlex.quote`d value, interpolated into a command
line, lexes as exactly one literal `word` token whose value is the original
string: no operator token, no unterminated quote, no unmodelled shell syntax,
so it cannot terminate or extend the command.  Independently, every flag value
handed to `run_task` is rendered as one `--flag=value` token with the value
individually shell-quoted, and that rendered token again lexes as a single
literal word. -/
theorem c2_shell_quoting (v flag : String)
    (hflag : flag.data.all (fun c => isSafeCode c.toNat) = true)
    (flags_dict : List (String × String)) (hmem : (flag, v) ∈ flags_dict) :
    shellLex (shlex_quote v) = some [Tok.word v.data] ∧
    (flag ++ "=" ++ shlex_quote v) ∈ run_task_flag_args flags_dict ∧
    shellLex (flag ++ "=" ++ shlex_quote v) =
      some [Tok.word (flag.data ++ '=' :: v.data)] := by
  refine ⟨shellLex_quote_str v, ?_, shellLex_flag_str flag v hflag⟩
  exact List.mem_map_of_mem (fun fv => fv.1 ++ "=" ++ shlex_quote fv.2) hmem

/-- Witness for C2 at the spec's own example of a hostile value. -/
theorem c2_shell_quoting_witness :
    shellLex (shlex_quote "; rm -rf /") = some [Tok.word "; rm -rf /".data] ∧
    ("--branch" ++ "=" ++ shlex_quote "; rm -rf /") ∈
      run_task_flag_args [("--branch", "; rm -rf /")] ∧
    shellLex ("--branch" ++ "=" ++ shlex_quote "; rm -rf /") =
      some [Tok.word ("--branch".data ++ '=' :: "; rm -rf /".data)] :=
  c2_shell_quoting "; rm -rf /" "--branch" (by decide) _ (by decide)

/-- Claim C10: on every run that reaches the BUILD section, the decrypted
plaintext user-environment-variable values are serialized as JSON into the
`--user-env-vars` entry of `build_flags`, which is passed to
`run-federalist-script` and to the `build-jekyll` / `build-hugo` invocations;
`run_task` renders that entry on the subprocess command line as the single
shell-quoted token `--user-env-vars=<json>` — so decrypted secrets appear on
subprocess command lines. -/
theorem c10_secrets_on_command_line (env : PipelineEnv)
    (hp : env.processingRaises = false) (hf : env.fetchBeh = StepBeh.ok)
    (hc : env.fetchCode = 0) :
    ("--user-env-vars", jsonDumpsUevs env.decryptedUevs) ∈ buildFlags env ∧
    (tasksOf (main env)).head? =
      some ("run-federalist-script", some (buildFlags env)) ∧
    (env.fedScriptBeh = StepBeh.ok → env.generator = "jekyll" →
      ("build-jekyll", some (buildFlags env ++ [("--config", env.configPath)]))
        ∈ tasksOf (main env)) ∧
    (env.fedScriptBeh = StepBeh.ok → env.generator = "hugo" →
      ("build-hugo", some (buildFlags env)) ∈ tasksOf (main env)) ∧
    ("--user-env-vars" ++ "=" ++ shlex_quote (jsonDumpsUevs env.decryptedUevs))
      ∈ run_task_flag_args (buildFlags env) ∧
    shellLex ("--user-env-vars" ++ "=" ++ shlex_quote (jsonDumpsUevs env.decryptedUevs)) =
      some [Tok.word ("--user-env-vars".data ++ '=' ::
        (jsonDumpsUevs env.decryptedUevs).data)] := by
  have hm := main_eq_of_processing_ok env hp
  rw [body_eq_of_fetch_ok env hf hc] at hm
  refine ⟨by simp [buildFlags], ?_, ?_, ?_, ?_, ?_⟩
  · rw [hm]
    cases hfs : env.fedScriptBeh <;>
      simp [buildPhase, stepEvents, hfs, tasksOf_exitEvents]
  · intro hfs hg
    rw [hm]
    cases hgb : env.generatorBuildBeh <;>
      simp [buildPhase, stepEvents, hfs, dispatch, hg, hgb,
        tasksOf_exitEvents, tasksOf_publishPhase]
  · intro hfs hg
    rw [hm]
    cases hgb : env.generatorBuildBeh <;>
      simp [buildPhase, stepEvents, hfs, dispatch, hg, hgb,
        tasksOf_exitEvents, tasksOf_publishPhase]
  · exact List.mem_map_of_mem
      (fun fv : String × String => fv.1 ++ "=" ++ shlex_quote fv.2)
      (show ("--user-env-vars", jsonDumpsUevs env.decryptedUevs) ∈ buildFlags env by
        simp [buildFlags])
  · exact shellLex_flag_str "--user-env-vars" (jsonDumpsUevs env.decryptedUevs)
      (by decide)

/-- Witness for C10 at the concrete hugo run `envHugoUev`, which carries one
decrypted user environment variable. -/
theorem c10_secrets_on_command_line_witness :
    ("build-hugo", some (buildFlags envHugoUev)) ∈ tasksOf (main envHugoUev) ∧
    ("--user-env-vars" ++ "=" ++ shlex_quote (jsonDumpsUevs envHugoUev.decryptedUevs))
      ∈ run_task_flag_args (buildFlags envHugoUev) ∧
    shellLex ("--user-env-vars" ++ "=" ++
        shlex_quote (jsonDumpsUevs envHugoUev.decryptedUevs)) =
      some [Tok.word ("--user-env-vars".data ++ '=' ::
        (jsonDumpsUevs envHugoUev.decryptedUevs).data)] := by
  have h := c10_secrets_on_command_line envHugoUev rfl rfl rfl
  exact ⟨h.2.2.2.1 rfl rfl, h.2.2.2.2.1, h.2.2.2.2.2⟩

/-- Claim C3 counterexample: the key `BRANCH` matches the known parameter
`branch` case-insensitively and its value is non-null, so per the claim it
should be retained — but the source's membership test `k in build_arguments`
is case-sensitive (`k.lower()` is applied only to the output key), so the
code drops it (and warns about it).  The spec-words variant
`sanitizeKwargsSpecCI` retains it. -/
theorem c3_case_sensitivity_counterexample :
    sanitizeKwargs buildArguments [("BRANCH", some (JVal.str "main"))] = [] ∧
    sanitizeKwargsSpecCI buildArguments [("BRANCH", some (JVal.str "main"))] =
      [("branch", JVal.str "main")] ∧
    "branch" ∈ buildArguments ∧
    pyLower "BRANCH" = "branch" ∧
    sanitizeWarnings buildArguments [("BRANCH", some (JVal.str "main"))] =
      ["BRANCH"] := by
  decide

/-- Claim C3, amended: the validated keyword set consists exactly of the
request keys that are exact (case-sensitive) members of the build step's
parameter set and whose value is not null, with the key lowercased in the
output (a no-op for the lower-case parameter names); every key not in that
set — matched case-sensitively — is reported with a warning and dropped, and
never causes the sanitizer to fail. -/
theorem c3_exact_match_filter (args : List String)
    (params : List (String × Option JVal)) :
    (∀ l v, (l, v) ∈ sanitizeKwargs args params ↔
      ∃ k, (k, some v) ∈ params ∧ k ∈ args ∧ l = pyLower k) ∧
    (∀ k, k ∈ sanitizeWarnings args params ↔ ∃ ov, (k, ov) ∈ params ∧ k ∉ args) := by
  constructor
  · intro l v
    rw [sanitizeKwargs, List.mem_filterMap]
    constructor
    · rintro ⟨⟨k, ov⟩, hmem, hf⟩
      cases ov with
      | none => exact absurd hf (by simp)
      | some v0 =>
          dsimp only at hf
          by_cases hk : k ∈ args
          · rw [if_pos hk] at hf
            have h1 := Option.some.inj hf
            have h2 : pyLower k = l := congrArg Prod.fst h1
            have h3 : v0 = v := congrArg Prod.snd h1
            exact ⟨k, h3 ▸ hmem, hk, h2.symm⟩
          · rw [if_neg hk] at hf
            exact absurd hf (by simp)
    · rintro ⟨k, hmem, hk, rfl⟩
      refine ⟨(k, some v), hmem, ?_⟩
      dsimp only
      rw [if_pos hk]
  · intro k
    rw [sanitizeWarnings]
    simp only [List.mem_map, List.mem_filter, decide_eq_true_eq]
    constructor
    · rintro ⟨⟨k0, ov⟩, ⟨hmem, hnot⟩, rfl⟩
      exact ⟨ov, hmem, hnot⟩
    · rintro ⟨ov, hmem, hnot⟩
      exact ⟨(k, ov), ⟨hmem, hnot⟩, rfl⟩

/-- Witness for C3 (amended): a retained exact-match key and a warned
unknown key, on concrete input. -/
theorem c3_exact_match_filter_witness :
    ("branch", JVal.str "main") ∈ sanitizeKwargs buildArguments
      [("branch", some (JVal.str "main")), ("Bogus", some (JVal.str "x"))] ∧
    "Bogus" ∈ sanitizeWarnings buildArguments
      [("branch", some (JVal.str "main")), ("Bogus", some (JVal.str "x"))] := by
  have h := c3_exact_match_filter buildArguments
    [("branch", some (JVal.str "main")), ("Bogus", some (JVal.str "x"))]
  constructor
  · exact (h.1 "branch" (JVal.str "main")).mpr
      ⟨"branch", by decide, by decide, by decide⟩
  · exact (h.2 "Bogus").mpr ⟨some (JVal.str "x"), by decide, by decide⟩

/-- Claim C8: `private_values` returns the AWS key pair in order, then the
source-control token exactly when it is non-empty, then every decrypted user
value in input order. -/
theorem c8_secret_set_order (k s t : String) (us : List String) :
    (t ≠ "" → private_values k s t us = k :: s :: t :: us) ∧
    (t = "" → private_values k s t us = k :: s :: us) := by
  constructor
  · intro h
    have hne : t.isEmpty = false := by
      cases he : t.isEmpty
      · rfl
      · exact absurd ((String.isEmpty_iff t).mp he) h
    simp [private_values, hne]
  · intro h
    subst h
    have he : ("" : String).isEmpty = true := rfl
    simp [private_values, he]

/-- Witness for C8 at concrete credentials, with and without a token. -/
theorem c8_secret_set_order_witness :
    private_values "ak" "sk" "tok" ["u1", "u2"] = ["ak", "sk", "tok", "u1", "u2"] ∧
    private_values "ak" "sk" "" ["u1"] = ["ak", "sk", "u1"] :=
  ⟨(c8_secret_set_order "ak" "sk" "tok" ["u1", "u2"]).1 (by decide),
   (c8_secret_set_order "ak" "sk" "" ["u1"]).2 rfl⟩

/-- Claim C9: the four parameters `user_environment_variables`, `branch`,
`owner`, `repository` are de facto required: whenever one of them is absent
from the filtered keyword set (absent from the request, or dropped because
its value was null), the sanitizer's direct `kwargs[...]` subscript raises an
uncaught `KeyError` for that key, in source access order. -/
theorem c9_required_kwargs (args : List String)
    (params : List (String × Option JVal)) (parse : String → Option JVal) :
    (lookupKw (sanitizeKwargs args params) "user_environment_variables" = none →
      sanitize args params parse =
        .error (.keyError "user_environment_variables")) ∧
    (∀ uevs kw1,
      lookupKw (sanitizeKwargs args params) "user_environment_variables" = some uevs →
      uevStep parse (sanitizeKwargs args params) uevs = .ok kw1 →
      lookupKw kw1 "branch" = none →
      sanitize args params parse = .error (.keyError "branch")) ∧
    (∀ uevs kw1 kw2,
      lookupKw (sanitizeKwargs args params) "user_environment_variables" = some uevs →
      uevStep parse (sanitizeKwargs args params) uevs = .ok kw1 →
      quoteStep kw1 "branch" = .ok kw2 →
      lookupKw kw2 "owner" = none →
      sanitize args params parse = .error (.keyError "owner")) ∧
    (∀ uevs kw1 kw2 kw3,
      lookupKw (sanitizeKwargs args params) "user_environment_variables" = some uevs →
      uevStep parse (sanitizeKwargs args params) uevs = .ok kw1 →
      quoteStep kw1 "branch" = .ok kw2 →
      quoteStep kw2 "owner" = .ok kw3 →
      lookupKw kw3 "repository" = none →
      sanitize args params parse = .error (.keyError "repository")) := by
  refine ⟨?_, ?_, ?_, ?_⟩
  · intro h
    simp only [sanitize, h]
  · intro uevs kw1 h1 h2 h3
    simp only [sanitize, h1]
    simp only [h2]
    simp only [quoteStep, h3]
  · intro uevs kw1 kw2 h1 h2 h3 h4
    simp only [sanitize, h1]
    simp only [h2]
    simp only [h3]
    simp only [quoteStep, h4]
  · intro uevs kw1 kw2 kw3 h1 h2 h3 h4 h5
    simp only [sanitize, h1]
    simp only [h2]
    simp only [h3]
    simp only [h4]
    simp only [quoteStep, h5]

/-- Witness for C9: concrete requests missing each of the four keys in
turn. -/
theorem c9_required_kwargs_witness :
    sanitize buildArguments [] noParse =
      .error (.keyError "user_environment_variables") ∧
    sanitize buildArguments [("user_environment_variables", some (JVal.str ""))]
        noParse = .error (.keyError "branch") ∧
    sanitize buildArguments [("user_environment_variables", some (JVal.str "")),
        ("branch", some (JVal.str "main"))] noParse =
      .error (.keyError "owner") ∧
    sanitize buildArguments [("user_environment_variables", some (JVal.str "")),
        ("branch", some (JVal.str "main")), ("owner", some (JVal.str "octo"))]
        noParse = .error (.keyError "repository") := by
  refine ⟨?_, ?_, ?_, ?_⟩
  · exact (c9_required_kwargs buildArguments [] noParse).1 rfl
  · exact (c9_required_kwargs buildArguments
      [("user_environment_variables", some (JVal.str ""))] noParse).2.1
      (JVal.str "") [("user_environment_variables", JVal.str "")] rfl rfl rfl
  · exact (c9_required_kwargs buildArguments
      [("user_environment_variables", some (JVal.str "")),
       ("branch", some (JVal.str "main"))] noParse).2.2.1
      (JVal.str "")
      [("user_environment_variables", JVal.str ""), ("branch", JVal.str "main")]
      [("user_environment_variables", JVal.str ""), ("branch", JVal.str "main")]
      rfl rfl rfl rfl
  · exact (c9_required_kwargs buildArguments
      [("user_environment_variables", some (JVal.str "")),
       ("branch", some (JVal.str "main")), ("owner", some (JVal.str "octo"))]
      noParse).2.2.2
      (JVal.str "")
      [("user_environment_variables", JVal.str ""), ("branch", JVal.str "main"),
       ("owner", JVal.str "octo")]
      [("user_environment_variables", JVal.str ""), ("branch", JVal.str "main"),
       ("owner", JVal.str "octo")]
      [("user_environment_variables", JVal.str ""), ("branch", JVal.str "main"),
       ("owner", JVal.str "octo")]
      rfl rfl rfl rfl rfl

end FederalistGardenBuild
